import Mathlib

/-!
Verification of the session-analytics helpers of the London-Open repository.

The JavaScript helper functions of `bin/analyze_monday_entries.js` and of the
companion Monday-pattern script are embedded shallowly over `ℚ`:

* `calculateVWAP`, `calculateEMA`, `calculateRSI`, `calculateStats` are direct
  translations of the corresponding functions (same names, same structure);
* per-day ratio computations of the analysis loops are embedded where a claim
  needs them, with JavaScript division by zero (which yields NaN/Infinity, not
  an exception) modelled as `Option.none` via `jsDiv`.
-/

/-- One OHLCV candle, as stored in the `ohlc_*` collections.  The JS field
`open` is a Lean keyword, hence the guillemets. -/
structure Candle where
  «open» : ℚ
  high : ℚ
  low : ℚ
  close : ℚ
  volume : ℚ
  deriving Repr, DecidableEq

/-- Typical price `(high + low + close) / 3` used by `calculateVWAP`. -/
def typicalPrice (c : Candle) : ℚ :=
  (c.high + c.low + c.close) / 3

/-- The JS expression `candle.volume || 1`: a volume of `0` (falsy) is
replaced by `1`.  (In JS this also catches `undefined`; volumes are total
rationals here.) -/
def volOr1 (c : Candle) : ℚ :=
  if c.volume = 0 then 1 else c.volume

/-- Loop body of `calculateVWAP`: the two mutable accumulators
`cumulativeTPV` and `cumulativeVolume` threaded through the `map`. -/
def vwapGo (cumulativeTPV cumulativeVolume : ℚ) : List Candle → List ℚ
  | [] => []
  | c :: rest =>
    let tpv := typicalPrice c * volOr1 c
    let ctpv := cumulativeTPV + tpv
    let cvol := cumulativeVolume + volOr1 c
    ctpv / cvol :: vwapGo ctpv cvol rest

/-- `calculateVWAP` from `bin/analyze_monday_entries.js` (lines 45-56). -/
def calculateVWAP (candles : List Candle) : List ℚ :=
  vwapGo 0 0 candles

/-- Loop body of `calculateEMA`: each entry is
`prices[i] * k + ema[i-1] * (1 - k)`. -/
def emaGo (k prev : ℚ) : List ℚ → List ℚ
  | [] => []
  | x :: rest =>
    let e := x * k + prev * (1 - k)
    e :: emaGo k e rest

/-- `calculateEMA` from `bin/analyze_monday_entries.js` (lines 58-66):
seeded with `prices[0]`, smoothing constant `k = 2 / (period + 1)`.  The JS
function indexes `prices[0]`, so the empty input (which would produce
`[undefined]`) is mapped to `[]` here; every claim restricts to non-empty
inputs. -/
def calculateEMA (prices : List ℚ) (period : ℕ) : List ℚ :=
  let k : ℚ := 2 / ((period : ℚ) + 1)
  match prices with
  | [] => []
  | p :: ps => p :: emaGo k p ps

/-- The `changes` array of `calculateRSI`: `changes[i] = prices[i+1] - prices[i]`. -/
def rsiChanges (prices : List ℚ) : List ℚ :=
  List.zipWith (fun a b => b - a) prices (prices.drop 1)

/-- Seed `avgGain` of `calculateRSI`: positive changes among the first
`period` changes, summed and divided by `period`. -/
def rsiInitGain (prices : List ℚ) (period : ℕ) : ℚ :=
  (((rsiChanges prices).take period).map (fun c => if c > 0 then c else 0)).sum
    / (period : ℚ)

/-- Seed `avgLoss` of `calculateRSI`: absolute values of non-positive changes
among the first `period` changes (the JS `else` branch adds `|change|` also
for a zero change), summed and divided by `period`. -/
def rsiInitLoss (prices : List ℚ) (period : ℕ) : ℚ :=
  (((rsiChanges prices).take period).map (fun c => if c > 0 then 0 else |c|)).sum
    / (period : ℚ)

/-- The Wilder-smoothing loop of `calculateRSI`, exposing the pair
`(avgGain, avgLoss)` after each processed change:
`avg := (avg * (period - 1) + contribution) / period`. -/
def wilderStates (period : ℕ) (avgGain avgLoss : ℚ) : List ℚ → List (ℚ × ℚ)
  | [] => []
  | change :: rest =>
    let g := (avgGain * ((period : ℚ) - 1) + (if change > 0 then change else 0))
      / (period : ℚ)
    let l := (avgLoss * ((period : ℚ) - 1) + (if change < 0 then |change| else 0))
      / (period : ℚ)
    (g, l) :: wilderStates period g l rest

/-- The value pushed onto `rsi` for a smoothed state:
`rs = avgLoss === 0 ? 100 : avgGain / avgLoss` and `100 - 100/(1+rs)`. -/
def rsiOfState (s : ℚ × ℚ) : ℚ :=
  let rs := if s.2 = 0 then 100 else s.1 / s.2
  100 - 100 / (1 + rs)

/-- The sequence of `(avgGain, avgLoss)` states of `calculateRSI prices period`,
one per change processed by the smoothing loop (changes `period` onwards). -/
def rsiStates (prices : List ℚ) (period : ℕ) : List (ℚ × ℚ) :=
  wilderStates period (rsiInitGain prices period) (rsiInitLoss prices period)
    ((rsiChanges prices).drop period)

/-- `calculateRSI` from `bin/analyze_monday_entries.js` (lines 68-97):
inputs shorter than `period + 1` yield an input-length array of `50`;
otherwise the result is `50` followed by one RSI value per smoothed state. -/
def calculateRSI (prices : List ℚ) (period : ℕ) : List ℚ :=
  if prices.length < period + 1 then List.replicate prices.length 50
  else 50 :: (rsiStates prices period).map rsiOfState

/-- Result record of `calculateStats`.  The JS object for the empty input has
no `q25`/`q75` keys, modelled by `Option`.  The source stores
`stdDev = Math.sqrt(variance)`; the exact rational `variance` (divisor `n`)
is kept here, `stdDev` being its square root. -/
structure Stats where
  mean : ℚ
  median : ℚ
  variance : ℚ
  min : ℚ
  max : ℚ
  q25 : Option ℚ
  q75 : Option ℚ
  deriving Repr, DecidableEq

/-- Ascending numeric sort `[...values].sort((a, b) => a - b)`. -/
def sortValues (values : List ℚ) : List ℚ :=
  values.mergeSort (fun a b => a ≤ b)

/-- `calculateStats` from `bin/analyze_monday_entries.js` (lines 99-117), the
same function appearing verbatim in the Monday-pattern script.  The JS index
expressions `Math.floor(length * 0.25)`, `Math.floor(length / 2)` and
`Math.floor(length * 0.75)` are the natural-number divisions below (0.25 and
0.75 are exact binary floats). -/
def calculateStats (values : List ℚ) : Stats :=
  if values.length = 0 then ⟨0, 0, 0, 0, 0, none, none⟩
  else
    let sorted := sortValues values
    let mean := values.sum / (values.length : ℚ)
    let median := sorted.getD (sorted.length / 2) 0
    let variance := (values.map (fun val => (val - mean) ^ 2)).sum / (values.length : ℚ)
    ⟨mean, median, variance, sorted.getD 0 0, sorted.getD (sorted.length - 1) 0,
      some (sorted.getD (sorted.length * 25 / 100) 0),
      some (sorted.getD (sorted.length * 75 / 100) 0)⟩

/-- The two per-day fields of `mondayStats` that the predictive-accuracy pass
of the Monday-pattern script reads: `firstHourChange` and `dailyChange`. -/
structure DayRecord where
  firstHourChange : ℚ
  dailyChange : ℚ
  deriving Repr, DecidableEq

/-- Predictive accuracy of the Monday-pattern script (section 6):
`firstHourCorrect = #(firstHourBullish ∧ bullishDay) + #(firstHourBearish ∧ bearishDay)`
with `firstHourBullish := firstHourChange > 0`, `bullishDay := dailyChange > 0`,
`firstHourBearish := firstHourChange < 0`, `bearishDay := dailyChange < 0`,
then `(firstHourCorrect / mondayStats.length) * 100`. -/
def predictionAccuracy (days : List DayRecord) : ℚ :=
  let firstHourBullishDayBullish :=
    days.countP (fun d => decide (0 < d.firstHourChange ∧ 0 < d.dailyChange))
  let firstHourBearishDayBearish :=
    days.countP (fun d => decide (d.firstHourChange < 0 ∧ d.dailyChange < 0))
  let firstHourCorrect := firstHourBullishDayBullish + firstHourBearishDayBearish
  ((firstHourCorrect : ℚ) / (days.length : ℚ)) * 100

/-- JavaScript `Math.sign`. -/
def qsign (x : ℚ) : ℤ :=
  if 0 < x then 1 else if x < 0 then -1 else 0

/-- JavaScript division restricted to valid results: a zero denominator
yields NaN or ±Infinity in JS, modelled as `none`. -/
def jsDiv (a b : ℚ) : Option ℚ :=
  if b = 0 then none else some (a / b)

/-- `openBarBodyPercent` of `analyzeMondayEntries` (lines 216-218):
`Math.abs(close - open) / (high - low) * 100` on the first candle, with no
guard on the denominator. -/
def openBarBodyPercent (firstCandle : Candle) : Option ℚ :=
  let openBarRange := firstCandle.high - firstCandle.low
  (jsDiv (|firstCandle.close - firstCandle.«open»|) openBarRange).map (· * 100)

/-- `openRelativeToRange` of the Monday-pattern script (line 139):
`((openPrice - dailyLow) / dailyRange) * 100`, with no guard on the
denominator. -/
def openRelativeToRange (openPrice dailyLow dailyRange : ℚ) : Option ℚ :=
  (jsDiv (openPrice - dailyLow) dailyRange).map (· * 100)

/-- `longRR` of `analyzeMondayEntries` (line 305): the guarded ratio
`longRisk > 0 ? longReward / longRisk : 0`. -/
def longRR (longReward longRisk : ℚ) : ℚ :=
  if longRisk > 0 then longReward / longRisk else 0

/-- `shortRR` of `analyzeMondayEntries` (line 309): the guarded ratio
`shortRisk > 0 ? shortReward / shortRisk : 0`. -/
def shortRR (shortReward shortRisk : ℚ) : ℚ :=
  if shortRisk > 0 then shortReward / shortRisk else 0

/-! ### Structural lemmas about the indicator loops -/

theorem length_vwapGo (cs : List Candle) : ∀ a b : ℚ, (vwapGo a b cs).length = cs.length := by
  induction cs with
  | nil => intro a b; rfl
  | cons c rest ih => intro a b; simp [vwapGo, ih]

theorem vwapGo_getD (cs : List Candle) :
    ∀ (ctpv cvol : ℚ) (i : ℕ), i < cs.length →
      (vwapGo ctpv cvol cs).getD i 0 =
        (ctpv + ((cs.take (i + 1)).map (fun c => typicalPrice c * volOr1 c)).sum) /
          (cvol + ((cs.take (i + 1)).map volOr1).sum) := by
  induction cs with
  | nil => intro ctpv cvol i hi; simp at hi
  | cons c rest ih =>
    intro ctpv cvol i hi
    cases i with
    | zero => simp [vwapGo]
    | succ i =>
      have hi' : i < rest.length := by simpa using hi
      simp only [vwapGo, List.getD_cons_succ, List.take_succ_cons, List.map_cons,
        List.sum_cons]
      rw [ih _ _ i hi']
      ring_nf

theorem length_emaGo (k : ℚ) (l : List ℚ) : ∀ prev : ℚ, (emaGo k prev l).length = l.length := by
  induction l with
  | nil => intro prev; rfl
  | cons x rest ih => intro prev; simp [emaGo, ih]

theorem emaGo_getD_succ (k : ℚ) (l : List ℚ) :
    ∀ (prev : ℚ) (i : ℕ), i < l.length →
      (prev :: emaGo k prev l).getD (i + 1) 0 =
        l.getD i 0 * k + (prev :: emaGo k prev l).getD i 0 * (1 - k) := by
  induction l with
  | nil => intro prev i hi; simp at hi
  | cons x rest ih =>
    intro prev i hi
    cases i with
    | zero => simp [emaGo]
    | succ i =>
      have hi' : i < rest.length := by simpa using hi
      have h := ih (x * k + prev * (1 - k)) i hi'
      simpa [emaGo] using h

theorem emaGo_replicate (k v : ℚ) (m : ℕ) :
    emaGo k v (List.replicate m v) = List.replicate m v := by
  induction m with
  | zero => rfl
  | succ m ih =>
    have hv : v * k + v * (1 - k) = v := by ring
    simp only [List.replicate_succ, emaGo, hv, ih]

theorem length_wilderStates (period : ℕ) (cs : List ℚ) :
    ∀ g l : ℚ, (wilderStates period g l cs).length = cs.length := by
  induction cs with
  | nil => intro g l; rfl
  | cons change rest ih => intro g l; simp [wilderStates, ih]

theorem wilderStates_nonneg (period : ℕ) (hp : 1 ≤ period) (cs : List ℚ) :
    ∀ g l : ℚ, 0 ≤ g → 0 ≤ l →
      ∀ s ∈ wilderStates period g l cs, 0 ≤ s.1 ∧ 0 ≤ s.2 := by
  induction cs with
  | nil => intro g l _ _ s hs; simp [wilderStates] at hs
  | cons change rest ih =>
    intro g l hg hl s hs
    have hper : (0 : ℚ) ≤ (period : ℚ) - 1 := by
      have : (1 : ℚ) ≤ (period : ℚ) := by exact_mod_cast hp
      linarith
    have hper0 : (0 : ℚ) ≤ (period : ℚ) := by positivity
    have hgain : (0 : ℚ) ≤ (g * ((period : ℚ) - 1) + if change > 0 then change else 0)
        / (period : ℚ) := by
      apply div_nonneg _ hper0
      have hc : (0 : ℚ) ≤ if change > 0 then change else 0 := by
        split
        · linarith
        · exact le_refl 0
      have := mul_nonneg hg hper
      linarith
    have hloss : (0 : ℚ) ≤ (l * ((period : ℚ) - 1) + if change < 0 then |change| else 0)
        / (period : ℚ) := by
      apply div_nonneg _ hper0
      have hc : (0 : ℚ) ≤ if change < 0 then |change| else 0 := by
        split
        · exact abs_nonneg change
        · exact le_refl 0
      have := mul_nonneg hl hper
      linarith
    simp only [wilderStates, List.mem_cons] at hs
    rcases hs with rfl | hs
    · exact ⟨hgain, hloss⟩
    · exact ih _ _ hgain hloss s hs

theorem rsiOfState_bounds (s : ℚ × ℚ) (h1 : 0 ≤ s.1) (h2 : 0 ≤ s.2) :
    0 ≤ rsiOfState s ∧ rsiOfState s ≤ 100 := by
  unfold rsiOfState
  set rs : ℚ := if s.2 = 0 then 100 else s.1 / s.2 with hrs
  have hrs0 : 0 ≤ rs := by
    rw [hrs]; split
    · norm_num
    · exact div_nonneg h1 h2
  have hpos : (0 : ℚ) < 1 + rs := by linarith
  have hle : 100 / (1 + rs) ≤ 100 := div_le_self (by norm_num) (by linarith)
  have hge : 0 ≤ 100 / (1 + rs) := by positivity
  constructor <;> simp only [] <;> linarith

theorem aligned_counts (days : List DayRecord)
    (h : ∀ d ∈ days, (0 < d.firstHourChange ∧ 0 < d.dailyChange) ∨
      (d.firstHourChange < 0 ∧ d.dailyChange < 0)) :
    days.countP (fun d => decide (0 < d.firstHourChange ∧ 0 < d.dailyChange)) +
      days.countP (fun d => decide (d.firstHourChange < 0 ∧ d.dailyChange < 0)) =
      days.length := by
  induction days with
  | nil => rfl
  | cons d rest ih =>
    have hrest := ih (fun x hx => h x (List.mem_cons_of_mem d hx))
    rcases h d (List.mem_cons_self d rest) with hup | hdown
    · rw [List.countP_cons_of_pos _ _ (by simpa using hup),
        List.countP_cons_of_neg _ _ (by simp; intro hneg; linarith [hup.1])]
      simp only [List.length_cons]
      omega
    · rw [List.countP_cons_of_neg _ _ (by simp; intro hpos; linarith [hdown.1]),
        List.countP_cons_of_pos _ _ (by simpa using hdown)]
      simp only [List.length_cons]
      omega

/-! ### The claims -/

/-- C1 counterexample: `calculateRSI` does not return a series of the input's
length — on sixteen strictly increasing prices with period 14 it returns only
two entries, and both are plain numbers (the first a constant 50), not
"no value" markers. -/
theorem c1_counterexample :
    (calculateRSI [0, 1, 2, 3, 4, 5, 6, 7, 8, 9, 10, 11, 12, 13, 14, 15] 14).length = 2 ∧
      ([0, 1, 2, 3, 4, 5, 6, 7, 8, 9, 10, 11, 12, 13, 14, 15] : List ℚ).length = 16 := by
  have h : calculateRSI [0, 1, 2, 3, 4, 5, 6, 7, 8, 9, 10, 11, 12, 13, 14, 15] 14
      = [50, 10000 / 101] := by
    norm_num [calculateRSI, rsiStates, rsiInitGain, rsiInitLoss, rsiChanges,
      wilderStates, rsiOfState]
  rw [h]
  norm_num

/-- C1 amended: for non-empty inputs, `calculateVWAP` and `calculateEMA`
return series of exactly the input's length with every position a plain
number (no warm-up gap at all); `calculateRSI` returns an input-length series
of the numeric placeholder 50 when the input is shorter than `period + 1`,
and otherwise a shorter series of `length - period` entries whose first entry
is the numeric placeholder 50 — early positions are numeric constants, never
"no value". -/
theorem c1_amended (candles : List Candle) (prices : List ℚ) (period : ℕ)
    (hp : prices ≠ []) :
    (calculateVWAP candles).length = candles.length ∧
    (calculateEMA prices period).length = prices.length ∧
    (calculateRSI prices period).length =
      (if prices.length < period + 1 then prices.length else prices.length - period) ∧
    (calculateRSI prices period).head? = some 50 := by
  obtain ⟨p, ps, rfl⟩ := List.exists_cons_of_ne_nil hp
  refine ⟨length_vwapGo candles 0 0, ?_, ?_, ?_⟩
  · simp [calculateEMA, length_emaGo]
  · unfold calculateRSI
    split
    · simp
    · rename_i hlong
      simp only [List.length_cons, List.length_map, rsiStates, length_wilderStates,
        List.length_drop, rsiChanges, List.length_zipWith, List.length_drop]
      simp only [List.length_cons] at hlong
      omega
  · unfold calculateRSI
    split
    · rename_i hshort
      simp only [List.length_cons] at hshort ⊢
      cases h : ps.length + 1 with
      | zero => omega
      | succ n => simp [List.replicate_succ]
    · rfl

/-- C1 witness: the amended statement evaluated on a one-candle list and the
two-price series `[1, 2]` with period 14. -/
theorem c1_witness :
    (calculateVWAP [⟨1, 2, 0, 1, 5⟩]).length = 1 ∧
    (calculateEMA [1, 2] 14).length = 2 ∧
    (calculateRSI [1, 2] 14).length = 2 ∧
    (calculateRSI [1, 2] 14).head? = some 50 := by
  have h := c1_amended [⟨1, 2, 0, 1, 5⟩] [1, 2] 14 (by simp)
  simpa using h

/-- C2 counterexample: on two zero-volume candles with typical prices 1 and 3,
the cumulative volume at index 1 is 0, yet `calculateVWAP` returns 2 (the
mean of the typical prices, because `volume || 1` silently replaces each zero
volume by 1) instead of the typical price 3 claimed as the divide-by-zero
fallback. -/
theorem c2_counterexample :
    calculateVWAP [⟨1, 2, 0, 1, 0⟩, ⟨1, 5, 1, 3, 0⟩] = [1, 2] ∧
    (([⟨1, 2, 0, 1, 0⟩, ⟨1, 5, 1, 3, 0⟩] : List Candle).map
      (fun c => c.volume)).sum = 0 ∧
    typicalPrice ⟨1, 5, 1, 3, 0⟩ = 3 ∧ (2 : ℚ) ≠ 3 := by
  refine ⟨?_, by norm_num, by norm_num [typicalPrice], by norm_num⟩
  norm_num [calculateVWAP, vwapGo, typicalPrice, volOr1]

/-- C2 amended: when every candle's volume is non-zero, `calculateVWAP`
returns at each index the cumulative sum of (typical price × volume) divided
by the cumulative sum of volume; a zero volume is replaced by 1 (`volume || 1`),
so the zero-cumulative-volume case never reaches the division and the claimed
typical-price fallback does not exist. -/
theorem c2_amended (candles : List Candle) (h : ∀ c ∈ candles, c.volume ≠ 0)
    (i : ℕ) (hi : i < candles.length) :
    (calculateVWAP candles).getD i 0 =
      ((candles.take (i + 1)).map (fun c => typicalPrice c * c.volume)).sum /
        ((candles.take (i + 1)).map (fun c => c.volume)).sum := by
  have hvol : ∀ c ∈ candles.take (i + 1), volOr1 c = c.volume := by
    intro c hc
    have := h c (List.take_subset (i + 1) candles hc)
    simp [volOr1, this]
  have h1 : (candles.take (i + 1)).map (fun c => typicalPrice c * volOr1 c)
      = (candles.take (i + 1)).map (fun c => typicalPrice c * c.volume) :=
    List.map_congr_left (fun c hc => by rw [hvol c hc])
  have h2 : (candles.take (i + 1)).map volOr1
      = (candles.take (i + 1)).map (fun c => c.volume) :=
    List.map_congr_left (fun c hc => by rw [hvol c hc])
  rw [calculateVWAP, vwapGo_getD candles 0 0 i hi, h1, h2, zero_add, zero_add]

/-- C2 witness: the amended cumulative formula evaluated on two candles with
volumes 2 and 6: the VWAP at index 1 is `(1·2 + 3·6) / (2 + 6) = 5/2`. -/
theorem c2_witness :
    (calculateVWAP [⟨1, 2, 0, 1, 2⟩, ⟨1, 5, 1, 3, 6⟩]).getD 1 0 = 5 / 2 := by
  rw [c2_amended [⟨1, 2, 0, 1, 2⟩, ⟨1, 5, 1, 3, 6⟩]
    (by intro c hc; fin_cases hc <;> norm_num) 1 (by norm_num)]
  norm_num [typicalPrice]

/-- C7 (confirmed): when all candles carry the same volume, every entry of
`calculateVWAP` equals the arithmetic mean of the typical prices of the
candles up to that index (the shared volume — or its `volume || 1`
replacement when it is zero — cancels). -/
theorem c7_vwap_equal_volumes (candles : List Candle) (v : ℚ)
    (h : ∀ c ∈ candles, c.volume = v) (i : ℕ) (hi : i < candles.length) :
    (calculateVWAP candles).getD i 0 =
      ((candles.take (i + 1)).map typicalPrice).sum / ((i : ℚ) + 1) := by
  set w : ℚ := if v = 0 then 1 else v with hw
  have hw0 : w ≠ 0 := by
    rw [hw]; split
    · norm_num
    · assumption
  have hvol : ∀ c ∈ candles.take (i + 1), volOr1 c = w := by
    intro c hc
    have := h c (List.take_subset (i + 1) candles hc)
    simp [volOr1, this, hw]
  have h1 : (candles.take (i + 1)).map (fun c => typicalPrice c * volOr1 c)
      = (candles.take (i + 1)).map (fun c => typicalPrice c * w) :=
    List.map_congr_left (fun c hc => by rw [hvol c hc])
  have h2 : (candles.take (i + 1)).map volOr1
      = (candles.take (i + 1)).map (fun _ => w) :=
    List.map_congr_left (fun c hc => by rw [hvol c hc])
  have hlen : (candles.take (i + 1)).length = i + 1 := by
    rw [List.length_take]
    omega
  rw [calculateVWAP, vwapGo_getD candles 0 0 i hi, h1, h2, zero_add, zero_add,
    List.sum_map_mul_right, List.map_const', List.sum_replicate, hlen,
    nsmul_eq_mul]
  rw [mul_div_mul_right _ _ hw0]
  push_cast
  ring_nf

/-- C7 witness: two candles of equal volume 4 and typical prices 1 and 3; the
VWAP at index 1 is their mean, 2. -/
theorem c7_witness :
    (calculateVWAP [⟨1, 2, 0, 1, 4⟩, ⟨1, 5, 1, 3, 4⟩]).getD 1 0 = 2 := by
  rw [c7_vwap_equal_volumes [⟨1, 2, 0, 1, 4⟩, ⟨1, 5, 1, 3, 4⟩] 4
    (by intro c hc; fin_cases hc <;> norm_num) 1 (by norm_num)]
  norm_num [typicalPrice]

/-- C3 counterexample: on sixteen strictly increasing prices with period 14,
the Wilder-smoothed average loss at the single defined position is 0, yet
`calculateRSI` returns `10000/101 ≈ 99.0099` there, not 100 — the code sets
`rs = 100` instead of treating RS as unbounded, so `100 - 100/(1+100)` falls
short of 100. -/
theorem c3_counterexample :
    calculateRSI [0, 1, 2, 3, 4, 5, 6, 7, 8, 9, 10, 11, 12, 13, 14, 15] 14
      = [50, 10000 / 101] ∧
    (rsiStates [0, 1, 2, 3, 4, 5, 6, 7, 8, 9, 10, 11, 12, 13, 14, 15] 14).map
      Prod.snd = [0] ∧
    (10000 : ℚ) / 101 ≠ 100 := by
  refine ⟨?_, ?_, by norm_num⟩
  · norm_num [calculateRSI, rsiStates, rsiInitGain, rsiInitLoss, rsiChanges,
      wilderStates, rsiOfState]
  · norm_num [rsiStates, rsiInitGain, rsiInitLoss, rsiChanges, wilderStates]

/-- C3 amended: for inputs of length at least `period + 1`, at any defined
position whose Wilder-smoothed average loss is 0, `calculateRSI` returns
exactly `10000/101` (that is `100 - 100/(1+100)`, the code's cap obtained
from `rs = 100`), not 100. -/
theorem c3_amended (prices : List ℚ) (period : ℕ)
    (h : period + 1 ≤ prices.length) (i : ℕ)
    (hi : i < (rsiStates prices period).length)
    (hz : ((rsiStates prices period).getD i (0, 0)).2 = 0) :
    (calculateRSI prices period).getD (i + 1) 0 = 10000 / 101 := by
  unfold calculateRSI
  rw [if_neg (by omega)]
  rw [List.getD_cons_succ]
  have hlen : i < ((rsiStates prices period).map rsiOfState).length := by
    simpa using hi
  rw [List.getD_eq_getElem _ _ hlen, List.getElem_map]
  rw [List.getD_eq_getElem _ _ hi] at hz
  simp only [rsiOfState, hz, if_pos]
  norm_num

/-- C3 witness: the amended statement evaluated on the sixteen increasing
prices: the RSI entry after the zero-loss state is `10000/101`. -/
theorem c3_witness :
    (calculateRSI [0, 1, 2, 3, 4, 5, 6, 7, 8, 9, 10, 11, 12, 13, 14, 15] 14).getD 1 0
      = 10000 / 101 := by
  apply c3_amended _ _ (by norm_num) 0
  · norm_num [rsiStates, rsiInitGain, rsiInitLoss, rsiChanges, wilderStates]
  · norm_num [rsiStates, rsiInitGain, rsiInitLoss, rsiChanges, wilderStates]

/-- C4 (confirmed): for any price sequence and any period of at least 1 (the
script always passes 14), every entry of `calculateRSI` lies in `[0, 100]`:
short inputs give the constant 50, and every smoothed entry is
`100 - 100/(1+rs)` with `rs ≥ 0`. -/
theorem c4_rsi_bounded (prices : List ℚ) (period : ℕ) (hp : 1 ≤ period) :
    ∀ x ∈ calculateRSI prices period, 0 ≤ x ∧ x ≤ 100 := by
  intro x hx
  unfold calculateRSI at hx
  split at hx
  · have := List.eq_of_mem_replicate hx
    subst this
    norm_num
  · rcases List.mem_cons.mp hx with rfl | hx
    · norm_num
    · obtain ⟨s, hs, rfl⟩ := List.mem_map.mp hx
      have hper0 : (0 : ℚ) ≤ (period : ℚ) := by positivity
      have hg0 : 0 ≤ rsiInitGain prices period := by
        apply div_nonneg _ hper0
        apply List.sum_nonneg
        intro y hy
        obtain ⟨c, _, rfl⟩ := List.mem_map.mp hy
        split
        · linarith
        · exact le_refl 0
      have hl0 : 0 ≤ rsiInitLoss prices period := by
        apply div_nonneg _ hper0
        apply List.sum_nonneg
        intro y hy
        obtain ⟨c, _, rfl⟩ := List.mem_map.mp hy
        split
        · exact le_refl 0
        · exact abs_nonneg c
      have hnn := wilderStates_nonneg period hp _ _ _ hg0 hl0 s hs
      exact rsiOfState_bounds s hnn.1 hnn.2

/-- C4 witness: the bound evaluated at the defined entry `10000/101` of the
sixteen-price run with period 14. -/
theorem c4_witness : 0 ≤ (10000 : ℚ) / 101 ∧ (10000 : ℚ) / 101 ≤ 100 := by
  have e : calculateRSI [0, 1, 2, 3, 4, 5, 6, 7, 8, 9, 10, 11, 12, 13, 14, 15] 14
      = [50, 10000 / 101] := by
    norm_num [calculateRSI, rsiStates, rsiInitGain, rsiInitLoss, rsiChanges,
      wilderStates, rsiOfState]
  exact c4_rsi_bounded [0, 1, 2, 3, 4, 5, 6, 7, 8, 9, 10, 11, 12, 13, 14, 15] 14
    (by norm_num) (10000 / 101) (by rw [e]; simp)

/-- C8 (confirmed): `calculateEMA` seeds with the first price, follows the
recurrence `ema[i] = price[i]·k + ema[i-1]·(1-k)` with `k = 2/(period+1)`,
and on a constant series of value `v` of any length every entry equals `v`
exactly (the rational embedding has no floating error). -/
theorem c8_ema_recurrence_constant (period : ℕ) :
    (∀ prices : List ℚ, (calculateEMA prices period).head? = prices.head?) ∧
    (∀ (prices : List ℚ) (i : ℕ), i + 1 < prices.length →
      (calculateEMA prices period).getD (i + 1) 0 =
        prices.getD (i + 1) 0 * (2 / ((period : ℚ) + 1)) +
          (calculateEMA prices period).getD i 0 * (1 - 2 / ((period : ℚ) + 1))) ∧
    (∀ (v : ℚ) (n : ℕ), calculateEMA (List.replicate n v) period = List.replicate n v) := by
  refine ⟨?_, ?_, ?_⟩
  · intro prices
    cases prices with
    | nil => rfl
    | cons p ps => rfl
  · intro prices i hi
    cases prices with
    | nil => simp at hi
    | cons p ps =>
      have hi' : i < ps.length := by simpa using hi
      have h := emaGo_getD_succ (2 / ((period : ℚ) + 1)) ps p i hi'
      simpa [calculateEMA] using h
  · intro v n
    cases n with
    | zero => rfl
    | succ n =>
      simp only [List.replicate_succ, calculateEMA, emaGo_replicate]

/-- C8 witness: the seed, the recurrence at index 1 of `[1, 2]` with period
20, and the constant series `replicate 3 5`. -/
theorem c8_witness :
    (calculateEMA [1, 2] 20).head? = some 1 ∧
    (calculateEMA [1, 2] 20).getD 1 0 =
      2 * (2 / ((20 : ℚ) + 1)) + (calculateEMA [1, 2] 20).getD 0 0 * (1 - 2 / ((20 : ℚ) + 1)) ∧
    calculateEMA (List.replicate 3 5) 20 = List.replicate 3 5 := by
  refine ⟨?_, ?_, (c8_ema_recurrence_constant 20).2.2 5 3⟩
  · have h := (c8_ema_recurrence_constant 20).1 [1, 2]
    simpa using h
  · have h := (c8_ema_recurrence_constant 20).2.1 [1, 2] 0 (by norm_num)
    simpa using h

/-- C5 (confirmed): on the regression fixture `[1,…,10]`, `calculateStats`
returns 25th percentile 3, median 6 and 75th percentile 8 — the nearest-rank
entries `sorted[⌊0.25·10⌋] = sorted[2]`, `sorted[⌊10/2⌋] = sorted[5]`,
`sorted[⌊0.75·10⌋] = sorted[7]` of the ascending sort — and its variance is
`33/4`, the population value (divisor `n = 10`; the sample divisor 9 would
give `55/6`), so the stored `stdDev = √(33/4)` is the population standard
deviation. -/
theorem c5_stats_fixture :
    (calculateStats [1, 2, 3, 4, 5, 6, 7, 8, 9, 10]).q25 = some 3 ∧
    (calculateStats [1, 2, 3, 4, 5, 6, 7, 8, 9, 10]).median = 6 ∧
    (calculateStats [1, 2, 3, 4, 5, 6, 7, 8, 9, 10]).q75 = some 8 ∧
    (calculateStats [1, 2, 3, 4, 5, 6, 7, 8, 9, 10]).mean = 11 / 2 ∧
    (calculateStats [1, 2, 3, 4, 5, 6, 7, 8, 9, 10]).variance = 33 / 4 := by
  have hs : sortValues [1, 2, 3, 4, 5, 6, 7, 8, 9, 10]
      = [1, 2, 3, 4, 5, 6, 7, 8, 9, 10] := by
    apply List.mergeSort_eq_self
    norm_num [List.Sorted]
  refine ⟨?_, ?_, ?_, ?_, ?_⟩ <;> norm_num [calculateStats, hs]

/-- C6 counterexample: a one-day dataset whose morning move and target move
are both 0 has equal signs on every day (`sign 0 = sign 0`), yet the computed
predictive accuracy is 0, not 100 — the code counts only strictly-positive
and strictly-negative aligned pairs. -/
theorem c6_counterexample :
    predictionAccuracy [⟨0, 0⟩] = 0 ∧ qsign 0 = qsign 0 ∧ (0 : ℚ) ≠ 100 := by
  refine ⟨?_, rfl, by norm_num⟩
  norm_num [predictionAccuracy, List.countP, List.countP.go]

/-- C6 amended: predictive accuracy is the fraction of analyzed days on
which the morning move and the target-period move are both strictly positive
or both strictly negative (a day with a zero move on either side counts as a
miss); in particular, for every non-empty dataset in which each day's two
moves are both positive or both negative, the computed accuracy equals
100%. -/
theorem c6_amended (days : List DayRecord) (h1 : days ≠ [])
    (h2 : ∀ d ∈ days, (0 < d.firstHourChange ∧ 0 < d.dailyChange) ∨
      (d.firstHourChange < 0 ∧ d.dailyChange < 0)) :
    predictionAccuracy days = 100 := by
  simp only [predictionAccuracy]
  rw [aligned_counts days h2]
  have hlen0 : days.length ≠ 0 := fun hz => h1 (List.length_eq_zero.mp hz)
  have hlen : (days.length : ℚ) ≠ 0 := by exact_mod_cast hlen0
  rw [div_self hlen, one_mul]

/-- C6 witness: a two-day dataset, one day bullish on both sides and one
bearish on both, has accuracy exactly 100. -/
theorem c6_witness : predictionAccuracy [⟨1, 2⟩, ⟨-1, -3⟩] = 100 := by
  apply c6_amended
  · simp
  · intro d hd
    fin_cases hd
    · left; constructor <;> norm_num
    · right; constructor <;> norm_num

/-- C9: the claim that every non-VWAP/RSI ratio guards its denominator is
violated by the code: the opening-bar body percent
`|close - open| / (high - low) · 100` and the open-position ratio
`(open - dailyLow) / dailyRange · 100` are unguarded (a flat bar or flat day
divides by zero, NaN in JS, `none` here), while the risk/reward ratios are
guarded (`longRisk > 0 ? reward/risk : 0`). -/
theorem c9_unguarded_ratios :
    openBarBodyPercent ⟨100, 100, 100, 100, 1⟩ = none ∧
    openRelativeToRange 100 100 0 = none ∧
    longRR 5 0 = 0 ∧ shortRR 5 0 = 0 := by
  refine ⟨?_, ?_, ?_, ?_⟩ <;>
    norm_num [openBarBodyPercent, openRelativeToRange, jsDiv, longRR, shortRR]

/-- C10 (confirmed): `calculateStats` of the empty sample returns mean,
median, variance (hence `stdDev = √0 = 0`), min and max all 0 and carries no
25th/75th-percentile fields, while every non-empty sample yields all seven
fields, the two percentiles included. -/
theorem c10_stats_fields :
    calculateStats ([] : List ℚ) = ⟨0, 0, 0, 0, 0, none, none⟩ ∧
    ∀ values : List ℚ, values ≠ [] →
      (calculateStats values).q25.isSome ∧ (calculateStats values).q75.isSome := by
  constructor
  · rfl
  · intro values hv
    unfold calculateStats
    rw [if_neg (fun hz => hv (List.length_eq_zero.mp hz))]
    simp

/-- C10 witness: the field pattern evaluated at the empty sample and at the
singleton `[3]`. -/
theorem c10_witness :
    calculateStats ([] : List ℚ) = ⟨0, 0, 0, 0, 0, none, none⟩ ∧
    (calculateStats [(3 : ℚ)]).q25.isSome ∧ (calculateStats [(3 : ℚ)]).q75.isSome :=
  ⟨c10_stats_fields.1, c10_stats_fields.2 [3] (by simp)⟩
